import Mathlib

/-!
Verification of the chess-position preprocessing and balancing pipeline.

The development shallowly embeds the three Python scripts of the repository:

* `Preprocesamiento/data processing.py` — `parse_fen`, `parse_evaluation`;
* `Filtrado balanceado y normalizado/data filter balance normalize.py` —
  `filter_balance_normalize_data`;
* `Filtrado balanceado y normalizado/data filter balance no normalize.py` —
  `filter_balance_data_no_normalize`.

DataFrames become `List Row`; pandas/numpy/sklearn collaborators
(`DataFrame.sample`, `np.arange`, `pd.cut`, `MinMaxScaler`) are modelled as
executable Lean functions whose documented behaviour on the arguments the
scripts pass is reproduced exactly (for `sample`, whose concrete
pseudo-random stream is a Mersenne-Twister implementation detail, the model
is an explicit deterministic without-replacement selection).
-/

namespace ChessPipeline

/-! ## Data model

One row of the intermediate feature table produced by the preprocessing
script: 64 board cells, the one-hot side-to-move pair, four castling flags,
the en-passant flag, both move counters, and the parsed evaluation.
-/

structure Row where
  board : List Int
  is_white_to_move : Int
  is_black_to_move : Int
  white_kingside_castling : Int
  white_queenside_castling : Int
  black_kingside_castling : Int
  black_queenside_castling : Int
  en_passant_available : Int
  halfmove_clock : Int
  fullmove_counter : Int
  evaluation : Int
  deriving DecidableEq, Repr

/-- A row of the final normalized table: the original row plus the appended
`evaluation_normalized` column (modelled in `ℚ`; the script computes it in
IEEE doubles, and every value the claims mention is exactly representable). -/
structure RowN where
  row : Row
  evaluation_normalized : ℚ
  deriving DecidableEq, Repr

/-! ## Position Decoder (`parse_fen`) -/

/-- `PIECE_MAPPING` from `data processing.py`: piece symbol to signed code. -/
def PIECE_MAPPING : List (Char × Int) :=
  [('P', 1), ('N', 2), ('B', 3), ('R', 4), ('Q', 5), ('K', 6),
   ('p', -1), ('n', -2), ('b', -3), ('r', -4), ('q', -5), ('k', -6)]

/-- `PIECE_MAPPING.get(symbol, 0)`. -/
def pieceCode (c : Char) : Int := (PIECE_MAPPING.lookup c).getD 0

/-- The state `chess.Board(fen_string)` exposes to `parse_fen`: the board
library is an external collaborator, so it is embedded by its interface.
`squares` is indexed A1 (0) through H8 (63) as in `chess.SQUARES`. -/
structure Board where
  squares : List (Option Char)
  turn_white : Bool
  white_kingside : Bool
  white_queenside : Bool
  black_kingside : Bool
  black_queenside : Bool
  ep_square : Option Nat
  halfmove_clock : Nat
  fullmove_number : Nat
  deriving DecidableEq, Repr

/-- `parse_fen` from `data processing.py`.  `chess.Board` either constructs a
board or raises `ValueError`; the argument is that outcome
(`Except.error` = invalid FEN).  On error the script returns
`[0]*64 + [0, 0, 0, 0, 0, 0, 0, 0, 0]`. -/
def parse_fen (fen : Except String Board) : List Int :=
  match fen with
  | Except.error _ => List.replicate 64 (0 : Int) ++ [0, 0, 0, 0, 0, 0, 0, 0, 0]
  | Except.ok board =>
    let board_state := board.squares.map (fun sq =>
      match sq with
      | some c => pieceCode c
      | none => 0)
    let is_white_to_move : Int := if board.turn_white then 1 else 0
    let is_black_to_move : Int := if board.turn_white then 0 else 1
    let wk : Int := if board.white_kingside then 1 else 0
    let wq : Int := if board.white_queenside then 1 else 0
    let bk : Int := if board.black_kingside then 1 else 0
    let bq : Int := if board.black_queenside then 1 else 0
    let ep : Int := if board.ep_square.isSome then 1 else 0
    board_state ++
      [is_white_to_move, is_black_to_move, wk, wq, bk, bq, ep,
       (board.halfmove_clock : Int), (board.fullmove_number : Int)]

/-- Packs the 73-element feature list produced by `parse_fen` together with a
parsed evaluation into a `Row`, mirroring how `process_chess_data` lines the
features up under `OUTPUT_COLUMNS` (positions 64..72 after the 64 cells). -/
def rowOfFeatures (features : List Int) (evaluation : Int) : Row where
  board := features.take 64
  is_white_to_move := features.getD 64 0
  is_black_to_move := features.getD 65 0
  white_kingside_castling := features.getD 66 0
  white_queenside_castling := features.getD 67 0
  black_kingside_castling := features.getD 68 0
  black_queenside_castling := features.getD 69 0
  en_passant_available := features.getD 70 0
  halfmove_clock := features.getD 71 0
  fullmove_counter := features.getD 72 0
  evaluation := evaluation

/-! ## Evaluation Parser (`parse_evaluation`) -/

/-- One step of a linear congruential generator driving the sampling model. -/
def lcg (s : Nat) : Nat := (s * 1103515245 + 12345) % 2147483648

/-- Model of `pandas.DataFrame.sample(n, random_state)`: a deterministic
function of the seed that picks `min n xs.length` rows at pairwise distinct
positions (without replacement).  The concrete pseudo-random stream of
numpy's Mersenne Twister is an implementation detail; the properties the
scripts rely on (determinism given the seed, exact output size, selection
from the input) hold of the model as of the library. -/
def pd_sample {α : Type} (seed : Nat) : Nat → List α → List α
  | 0, _ => []
  | n + 1, xs =>
    if xs.isEmpty then []
    else
      match xs[seed % xs.length]? with
      | some y => y :: pd_sample (lcg seed) n (xs.eraseIdx (seed % xs.length))
      | none => []

/-- Model of `np.arange(start, stop, step)` for integer arguments and a
positive step: `start, start + step, ...` while strictly below `stop`. -/
def arange (start stop step : Int) : List Int :=
  if 0 < step then
    (List.range (((stop - start + step - 1).fdiv step).toNat)).map
      (fun k => start + step * (k : Int))
  else []

/-- Model of `pd.cut(v, bins=edges, labels=False, right=False)` for one
value: the index `j` with `edges[j] ≤ v < edges[j+1]`, or `none` (NaN) when
`v` lies outside every interval.  (`include_lowest` has no effect when
`right=False`.) -/
def pd_cut (edges : List Int) (v : Int) : Option Nat :=
  (List.range (edges.length - 1)).find?
    (fun j => decide (edges.getD j 0 ≤ v) && decide (v < edges.getD (j + 1) 0))

/-! ## Category Balancer and Evaluation Bin Balancer

Both balancing scripts share these stages verbatim; the only differences
between `data filter balance normalize.py` and
`data filter balance no normalize.py` are the extreme-evaluation capping
filter and the final normalization, handled in the composed functions
below. -/

/-- The type of the sampling collaborator: seed, requested size, rows. -/
abbrev SampleFn : Type := Nat → Nat → List Row → List Row

/-- The `win_loss_category` column assigned in step 4 of both scripts. -/
def win_loss_category (r : Row) : String :=
  if r.evaluation > 0 then "white_winning"
  else if r.evaluation < 0 then "black_winning"
  else "neutral"

/-- The `groupby(['is_white_to_move', 'win_loss_category'])` key of a row. -/
def groupKey (r : Row) : Int × String := (r.is_white_to_move, win_loss_category r)

/-- Rows of `df` belonging to the group keyed `k` (a pandas groupby group,
in original row order). -/
def groupRows (df : List Row) (k : Int × String) : List Row :=
  df.filter (fun r => decide (groupKey r = k))

/-- The distinct observed group keys.  pandas iterates them in sorted key
order; the model uses first-occurrence order, which affects only the
concatenation order of the output, not membership or any per-group count. -/
def groupKeys (df : List Row) : List (Int × String) :=
  (df.map groupKey).dedup

/-- The loop shared by both balancing stages: for each key, take the rows of
that group and downsample them to `target` with `sample(..., random_state=42)`
when the group is strictly larger than `target`, else keep the group whole;
concatenate the results. -/
def downsample_groups {κ : Type} [DecidableEq κ] (sample : SampleFn)
    (key : Row → κ) (keys : List κ) (target : Nat) (df : List Row) : List Row :=
  keys.flatMap (fun k =>
    if target < (df.filter (fun r => decide (key r = k))).length
    then sample 42 target (df.filter (fun r => decide (key r = k)))
    else df.filter (fun r => decide (key r = k)))

/-- `min_primary_group_count`: the minimum observed group size (the script
starts from `float('inf')` and only ever sees the non-empty groups pandas
yields; `0` here stands for the guarded empty-input case). -/
def min_primary_group_count (df : List Row) : Nat :=
  (((groupKeys df).map (fun k => (groupRows df k).length)).min?).getD 0

/-- Step 4 of both scripts: categorize by `(is_white_to_move,
win_loss_category)` and downsample every group to the smallest observed
group size.  `none` models the `min_primary_group_count == 0` early return
("One or more primary groups are empty. Cannot balance. Exiting."). -/
def balance_primary (sample : SampleFn) (df_centipawns : List Row) :
    Option (List Row) :=
  if min_primary_group_count df_centipawns = 0 then none
  else some (downsample_groups sample groupKey (groupKeys df_centipawns)
    (min_primary_group_count df_centipawns) df_centipawns)

/-- The bin edges of step 5:
`np.arange(int(min_eval // size) * size, int(max_eval // size) * size + size, size)`
(Python `//` is floor division, `Int.fdiv`). -/
def bin_edges (eval_bin_size min_eval max_eval : Int) : List Int :=
  arange ((min_eval.fdiv eval_bin_size) * eval_bin_size)
    ((max_eval.fdiv eval_bin_size) * eval_bin_size + eval_bin_size)
    eval_bin_size

/-- The `eval_bin` column of a row given the computed edges. -/
def eval_bin (edges : List Int) (r : Row) : Option Nat := pd_cut edges r.evaluation

/-- The bin edges step 5 computes for a table: the observed minimum and
maximum evaluation fed into `bin_edges`. -/
def df_bin_edges (eval_bin_size : Int) (df : List Row) : List Int :=
  bin_edges eval_bin_size (((df.map Row.evaluation).min?).getD 0)
    (((df.map Row.evaluation).max?).getD 0)

/-- The distinct observed (non-NaN) bin labels of step 5.
`value_counts()` orders labels by descending count; the model uses
first-occurrence order, which only permutes the output. -/
def bin_labels (eval_bin_size : Int) (df : List Row) : List Nat :=
  (df.filterMap (eval_bin (df_bin_edges eval_bin_size df))).dedup

/-- Step 5 of both scripts: bin the evaluations, and downsample every
observed bin above `min_positions_per_eval_bin` to exactly that target.
Rows whose `eval_bin` is NaN match no observed label and are dropped by the
selection loop; `none` models the `bin_counts.empty` early return. -/
def balance_bins (sample : SampleFn) (eval_bin_size : Int)
    (min_positions_per_eval_bin : Nat) (df : List Row) : Option (List Row) :=
  if (bin_labels eval_bin_size df).isEmpty then none
  else some (downsample_groups sample (eval_bin (df_bin_edges eval_bin_size df))
    ((bin_labels eval_bin_size df).map some) min_positions_per_eval_bin df)

/-! ## Normalizer -/

/-- sklearn's `_handle_zeros_in_scale`: a zero data range is replaced by 1. -/
def handle_zeros_in_scale (x : ℚ) : ℚ := if x = 0 then 1 else x

/-- sklearn's fitted `scale_`:
`(feature_range[1] - feature_range[0]) / handle_zeros(data_max_ - data_min_)`
with `feature_range = (-1, 1)` and the data bounds taken on the
`evaluation` column. -/
def norm_scale (df : List Row) : ℚ :=
  (1 - (-1)) / handle_zeros_in_scale
    (((((df.map Row.evaluation).max?).getD 0 : Int) : ℚ) -
      ((((df.map Row.evaluation).min?).getD 0 : Int) : ℚ))

/-- sklearn's fitted `min_`: `feature_range[0] - data_min_ * scale_`. -/
def norm_min (df : List Row) : ℚ :=
  -1 - ((((df.map Row.evaluation).min?).getD 0 : Int) : ℚ) * norm_scale df

/-- Model of `MinMaxScaler(feature_range=(-1, 1)).fit_transform` on the
`evaluation` column, exactly sklearn's formulas: the transformed value is
`x * scale_ + min_`, appended as the `evaluation_normalized` column. -/
def minmax_fit_transform (df : List Row) : List RowN :=
  df.map (fun r => ⟨r, (r.evaluation : ℚ) * norm_scale df + norm_min df⟩)

/-! ## The composed scripts -/

/-- The move-range filter of step 2 (inclusive on both ends). -/
def movePred (min_move max_move : Int) (r : Row) : Bool :=
  decide (min_move ≤ r.fullmove_counter) && decide (r.fullmove_counter ≤ max_move)

/-- The checkmate-sentinel separation of step 3 (centipawn side). -/
def centipawnPred (r : Row) : Bool :=
  !decide (r.evaluation = 20000) && !decide (r.evaluation = -20000)

/-- The extreme-evaluation capping filter (normalize variant only). -/
def capPred (eval_capping_threshold : Int) (r : Row) : Bool :=
  decide (-eval_capping_threshold ≤ r.evaluation) &&
    decide (r.evaluation ≤ eval_capping_threshold)

/-- `filter_balance_normalize_data` from
`data filter balance normalize.py`, after the file has been loaded into
`df`.  `none` models every early `return` (empty intermediate set, empty
group, empty bin set); `some` is the table written to the output file. -/
def filter_balance_normalize_data (sample : SampleFn)
    (min_move max_move eval_bin_size : Int) (min_positions_per_eval_bin : Nat)
    (eval_capping_threshold : Int) (df : List Row) : Option (List RowN) :=
  let df_filtered := df.filter (movePred min_move max_move)
  if df_filtered.isEmpty then none else
  let df_centipawns := df_filtered.filter centipawnPred
  if df_centipawns.isEmpty then none else
  let df_capped := df_centipawns.filter (capPred eval_capping_threshold)
  if df_capped.isEmpty then none else
  (balance_primary sample df_capped).bind (fun df_balanced_primary =>
    (balance_bins sample eval_bin_size min_positions_per_eval_bin
      df_balanced_primary).map minmax_fit_transform)

/-- `filter_balance_data_no_normalize` from
`data filter balance no normalize.py`: identical up to the absence of the
capping filter and of the normalization step. -/
def filter_balance_data_no_normalize (sample : SampleFn)
    (min_move max_move eval_bin_size : Int) (min_positions_per_eval_bin : Nat)
    (df : List Row) : Option (List Row) :=
  let df_filtered := df.filter (movePred min_move max_move)
  if df_filtered.isEmpty then none else
  let df_centipawns := df_filtered.filter centipawnPred
  if df_centipawns.isEmpty then none else
  (balance_primary sample df_centipawns).bind (fun df_balanced_primary =>
    balance_bins sample eval_bin_size min_positions_per_eval_bin
      df_balanced_primary)

/-! ## Concrete test rows (witness inputs) -/

/-- Convenience builder for witness rows: side to move, evaluation, and
fullmove counter, everything else at its default. -/
def mkRow (w e fm : Int) : Row where
  board := List.replicate 64 0
  is_white_to_move := w
  is_black_to_move := 1 - w
  white_kingside_castling := 0
  white_queenside_castling := 0
  black_kingside_castling := 0
  black_queenside_castling := 0
  en_passant_available := 0
  halfmove_clock := 0
  fullmove_counter := fm
  evaluation := e

/-- A four-row table whose category groups are already balanced (two
`(white, white_winning)` rows, two `(black, black_winning)` rows) and whose
maximum evaluation, 150, heads the observed range. -/
def dfC1 : List Row := [mkRow 1 50 10, mkRow 0 (-150) 11, mkRow 1 150 12, mkRow 0 (-50) 13]

/-- The category-balanced intermediate the bin stage computes from `dfC1`
(groups concatenated in first-occurrence key order). -/
def dfC1bal : List Row := [mkRow 1 50 10, mkRow 1 150 12, mkRow 0 (-150) 11, mkRow 0 (-50) 13]

/-- Three rows of one category whose bin-stage output has a constant
evaluation column: the 150 row is dropped by the binning, leaving two rows
of evaluation 50. -/
def dfC3 : List Row := [mkRow 1 50 10, mkRow 1 50 11, mkRow 1 150 12]

/-- A small two-group table for the category-balancing witness: three
`(white, white_winning)` rows against one `(black, black_winning)` row. -/
def dfC4 : List Row := [mkRow 1 10 6, mkRow 1 20 7, mkRow 1 30 8, mkRow 0 (-10) 9]

/-- A table for the bin-balancing witness: three rows in bin `[0, 100)` and
one in bin `[100, 200)`, with maximum 250 so both bins survive. -/
def dfC5 : List Row := [mkRow 1 10 6, mkRow 1 20 7, mkRow 1 30 8, mkRow 1 150 9, mkRow 1 250 10]

/-- Two rows with distinct evaluations for the normalization witness. -/
def dfC6 : List Row := [mkRow 1 0 10, mkRow 1 100 11]

/-! ## Helper lemmas: `min?`/`max?` on `Nat` and `Int` -/

theorem nat_min?_mem {l : List Nat} {a : Nat} (h : l.min? = some a) : a ∈ l :=
  List.min?_mem (fun x y => by omega) h

theorem nat_min?_le {l : List Nat} {a b : Nat} (h : l.min? = some a)
    (hb : b ∈ l) : a ≤ b :=
  (List.le_min?_iff (fun _ _ _ => by omega) h).mp le_rfl b hb

theorem int_min?_mem {l : List Int} {a : Int} (h : l.min? = some a) : a ∈ l :=
  List.min?_mem (fun x y => by omega) h

theorem int_min?_le {l : List Int} {a b : Int} (h : l.min? = some a)
    (hb : b ∈ l) : a ≤ b :=
  (List.le_min?_iff (fun _ _ _ => by omega) h).mp le_rfl b hb

theorem int_max?_mem {l : List Int} {a : Int} (h : l.max? = some a) : a ∈ l :=
  List.max?_mem (fun x y => by omega) h

theorem int_le_max? {l : List Int} {a b : Int} (h : l.max? = some a)
    (hb : b ∈ l) : b ≤ a :=
  (List.max?_le_iff (fun _ _ _ => by omega) h).mp le_rfl b hb

/-! ## Helper lemmas: the sampling model -/

theorem length_pd_sample {α : Type} (seed n : Nat) (xs : List α) :
    (pd_sample seed n xs).length = min n xs.length := by
  induction n generalizing seed xs with
  | zero => simp [pd_sample]
  | succ n ih =>
    by_cases hxs : xs.isEmpty
    · rw [List.isEmpty_iff] at hxs
      simp [pd_sample, hxs]
    · have hlen : 0 < xs.length := by
        cases xs with
        | nil => simp at hxs
        | cons y ys => simp
      have hi : seed % xs.length < xs.length := Nat.mod_lt _ hlen
      rw [pd_sample, if_neg (by simpa using hxs)]
      rw [List.getElem?_eq_getElem hi]
      simp only [List.length_cons, ih]
      rw [List.length_eraseIdx, if_pos hi]
      omega

theorem mem_pd_sample {α : Type} {seed n : Nat} {xs : List α} {y : α}
    (h : y ∈ pd_sample seed n xs) : y ∈ xs := by
  induction n generalizing seed xs with
  | zero => simp [pd_sample] at h
  | succ n ih =>
    by_cases hxs : xs.isEmpty
    · rw [pd_sample, if_pos hxs] at h
      simp at h
    · have hlen : 0 < xs.length := by
        cases xs with
        | nil => simp at hxs
        | cons y ys => simp
      have hi : seed % xs.length < xs.length := Nat.mod_lt _ hlen
      rw [pd_sample, if_neg (by simpa using hxs),
        List.getElem?_eq_getElem hi] at h
      rcases List.mem_cons.mp h with h | h
      · exact h ▸ List.getElem_mem hi
      · exact (List.eraseIdx_sublist xs (seed % xs.length)).mem (ih h)

/-! ## Helper lemmas: the shared downsampling loop -/

theorem mem_downsample {κ : Type} [DecidableEq κ] {key : Row → κ}
    {keys : List κ} {t : Nat} {df : List Row} {x : Row}
    (hx : x ∈ downsample_groups pd_sample key keys t df) : x ∈ df := by
  rw [downsample_groups, List.mem_flatMap] at hx
  obtain ⟨k, -, hx⟩ := hx
  split at hx
  · exact (List.mem_filter.mp (mem_pd_sample hx)).1
  · exact (List.mem_filter.mp hx).1

theorem downsample_chunk_all {κ : Type} [DecidableEq κ] (key : Row → κ)
    (t : Nat) (df : List Row) (k : κ) :
    ∀ x ∈ (if t < (df.filter (fun r => decide (key r = k))).length
        then pd_sample 42 t (df.filter (fun r => decide (key r = k)))
        else df.filter (fun r => decide (key r = k))), key x = k := by
  intro x hx
  split at hx
  · exact of_decide_eq_true (List.mem_filter.mp (mem_pd_sample hx)).2
  · exact of_decide_eq_true (List.mem_filter.mp hx).2

theorem downsample_chunk_length {κ : Type} [DecidableEq κ] (key : Row → κ)
    (t : Nat) (df : List Row) (k : κ) :
    (if t < (df.filter (fun r => decide (key r = k))).length
        then pd_sample 42 t (df.filter (fun r => decide (key r = k)))
        else df.filter (fun r => decide (key r = k))).length =
      min t (df.countP (fun r => decide (key r = k))) := by
  rw [List.countP_eq_length_filter]
  split
  · rw [length_pd_sample]
  · omega

theorem countP_downsample {κ : Type} [DecidableEq κ] (key : Row → κ)
    (keys : List κ) (t : Nat) (df : List Row) (k : κ) (hnd : keys.Nodup) :
    (downsample_groups pd_sample key keys t df).countP
        (fun r => decide (key r = k)) =
      if k ∈ keys then min t (df.countP (fun r => decide (key r = k))) else 0 := by
  induction keys with
  | nil => simp [downsample_groups]
  | cons k0 ks ih =>
    have hnd' : ks.Nodup := hnd.of_cons
    have hk0 : k0 ∉ ks := (List.nodup_cons.mp hnd).1
    rw [downsample_groups, List.flatMap_cons, List.countP_append]
    rw [downsample_groups] at ih
    by_cases hkk : k = k0
    · subst hkk
      have hall := downsample_chunk_all key t df k
      have hcnt : (if t < (df.filter (fun r => decide (key r = k))).length
          then pd_sample 42 t (df.filter (fun r => decide (key r = k)))
          else df.filter (fun r => decide (key r = k))).countP
            (fun r => decide (key r = k)) =
          min t (df.countP (fun r => decide (key r = k))) := by
        rw [← downsample_chunk_length key t df k]
        exact List.countP_eq_length.mpr (fun a ha => decide_eq_true (hall a ha))
      rw [hcnt, ih hnd', if_neg hk0, if_pos (List.mem_cons_self k ks)]
      omega
    · have hzero : (if t < (df.filter (fun r => decide (key r = k0))).length
          then pd_sample 42 t (df.filter (fun r => decide (key r = k0)))
          else df.filter (fun r => decide (key r = k0))).countP
            (fun r => decide (key r = k)) = 0 := by
        refine List.countP_eq_zero.mpr (fun a ha => ?_)
        have := downsample_chunk_all key t df k0 a ha
        simp [this, hkk, Ne.symm hkk]
      rw [hzero, ih hnd', Nat.zero_add]
      by_cases hks : k ∈ ks
      · rw [if_pos hks, if_pos (List.mem_cons_of_mem _ hks)]
      · rw [if_neg hks, if_neg (by simp [hkk, hks])]

theorem countP_downsample_mem {κ : Type} [DecidableEq κ] (key : Row → κ)
    (keys : List κ) (t : Nat) (df : List Row) (k : κ) (hnd : keys.Nodup)
    (hk : k ∈ keys) :
    (downsample_groups pd_sample key keys t df).countP
        (fun r => decide (key r = k)) =
      min t (df.countP (fun r => decide (key r = k))) := by
  rw [countP_downsample key keys t df k hnd, if_pos hk]

theorem countP_downsample_not_mem {κ : Type} [DecidableEq κ] (key : Row → κ)
    (keys : List κ) (t : Nat) (df : List Row) (k : κ) (hnd : keys.Nodup)
    (hk : k ∉ keys) :
    (downsample_groups pd_sample key keys t df).countP
        (fun r => decide (key r = k)) = 0 := by
  rw [countP_downsample key keys t df k hnd, if_neg hk]

/-! ## Helper lemmas: the evaluation parser -/

theorem digit_ne_plus {c : Char} (h : c.isDigit = true) : c ≠ '+' := by
  intro he; subst he; simp at h

theorem digit_ne_minus {c : Char} (h : c.isDigit = true) : c ≠ '-' := by
  intro he; subst he; simp at h

/-- Claim C8: for every structurally invalid board-description string
(`chess.Board` raised `ValueError`), the decoder substitutes the default
feature list — 64 empty cells, both side flags 0, all castling flags 0,
en-passant 0, halfmove 0, fullmove 0 — and the resulting table row carries
exactly those defaults. -/
theorem claim_C8_invalid_fen_default (msg : String) (ev : Int) :
    parse_fen (Except.error msg) =
      List.replicate 64 0 ++ [0, 0, 0, 0, 0, 0, 0, 0, 0] ∧
    rowOfFeatures (parse_fen (Except.error msg)) ev =
      { board := List.replicate 64 0, is_white_to_move := 0, is_black_to_move := 0,
        white_kingside_castling := 0, white_queenside_castling := 0,
        black_kingside_castling := 0, black_queenside_castling := 0,
        en_passant_available := 0, halfmove_clock := 0, fullmove_counter := 0,
        evaluation := ev } :=
  ⟨rfl, rfl⟩

/-- Claim C1 (code bug): the bins do NOT tile the observed range — the last
edge is `(max_eval // size) * size` and every interval is right-open, so
the row carrying the maximum observed evaluation is never assigned a bin
and is silently dropped.  Evaluated on `dfC1` (maximum 150, bin width 100):
the category-balanced intermediate `dfC1bal` has edges `[-200, -100, 0, 100]`,
the 150 row's bin is NaN, and the full no-normalize pipeline output omits
it while the claim says it stays eligible. -/
theorem claim_C1_max_row_unbinned :
    ((dfC1.map Row.evaluation).max? = some 150) ∧
    (df_bin_edges 100 dfC1bal = [-200, -100, 0, 100]) ∧
    (eval_bin (df_bin_edges 100 dfC1bal) (mkRow 1 150 12) = none) ∧
    (eval_bin (df_bin_edges 100 dfC1bal) (mkRow 0 (-150) 11) = some 0) ∧
    (filter_balance_data_no_normalize pd_sample 5 35 100 1000 dfC1 =
      some [mkRow 1 50 10, mkRow 0 (-150) 11, mkRow 0 (-50) 13]) ∧
    (mkRow 1 150 12 ∉ [mkRow 1 50 10, mkRow 0 (-150) 11, mkRow 0 (-50) 13]) := by
  refine ⟨by decide, by decide, by decide, by decide, by decide, by decide⟩

/-- Claim C2 counterexample: one of the six reachable (side, outcome)
groups — here `(1, "neutral")`, and four others — contains zero rows, yet
Category Balancing does not fail: pandas `groupby` only yields observed
(hence non-empty) groups, so the `min == 0` guard never fires and the stage
produces output. -/
theorem claim_C2_counterexample :
    (groupRows [mkRow 1 50 10] (1, "neutral")).length = 0 ∧
    balance_primary pd_sample [mkRow 1 50 10] = some [mkRow 1 50 10] := by
  refine ⟨by decide, by decide⟩

theorem min_primary_group_count_pos (df : List Row) (h : df ≠ []) :
    min_primary_group_count df ≠ 0 := by
  rcases hmin : ((groupKeys df).map (fun k => (groupRows df k).length)).min?
    with _ | a
  · rw [List.min?_eq_none_iff, List.map_eq_nil_iff] at hmin
    obtain ⟨r, hr⟩ := List.exists_mem_of_ne_nil df h
    have hk : groupKey r ∈ groupKeys df :=
      List.mem_dedup.mpr (List.mem_map_of_mem groupKey hr)
    rw [hmin] at hk
    simp at hk
  · have hmem := nat_min?_mem hmin
    rw [List.mem_map] at hmem
    obtain ⟨k, hkmem, hka⟩ := hmem
    have hex : ∃ x ∈ df, groupKey x = k := by
      have hmk := List.mem_dedup.mp hkmem
      rw [List.mem_map] at hmk
      exact hmk
    obtain ⟨x, hx, hxk⟩ := hex
    have hxg : x ∈ groupRows df k := List.mem_filter.mpr ⟨hx, by simp [hxk]⟩
    have hpos : 0 < (groupRows df k).length :=
      List.length_pos.mpr (List.ne_nil_of_mem hxg)
    rw [min_primary_group_count, hmin]
    simp only [Option.getD_some]
    omega

/-- Claim C2 amended: Category Balancing never fails with `EmptyCategory`.
The partition only ever yields the observed, non-empty groups, so whenever
any centipawn row remains the minimum observed group size is positive, the
zero-size guard cannot fire, and balancing proceeds — combinations among
the six that have no rows are silently skipped rather than aborting. -/
theorem claim_C2_amended (df : List Row) (h : df ≠ []) :
    (balance_primary pd_sample df).isSome = true := by
  rw [balance_primary, if_neg (min_primary_group_count_pos df h)]
  rfl

/-- Witness for the amended C2. -/
theorem claim_C2_witness :
    (balance_primary pd_sample [mkRow 0 (-30) 7]).isSome = true :=
  claim_C2_amended [mkRow 0 (-30) 7] (by decide)

/-- Claim C3 counterexample: the full normalize pipeline on `dfC3` reaches
the normalization step with a constant evaluation column (both surviving
rows evaluate to 50, the observed minimum equals the observed maximum),
yet the run does not fail: sklearn's `MinMaxScaler` replaces the zero
range by 1 and maps every value to -1, and the stage emits output. -/
theorem claim_C3_counterexample :
    filter_balance_normalize_data pd_sample 5 35 100 1000 2500 dfC3 =
      some [⟨mkRow 1 50 10, -1⟩, ⟨mkRow 1 50 11, -1⟩] := by
  have h1 : filter_balance_normalize_data pd_sample 5 35 100 1000 2500 dfC3 =
      some (minmax_fit_transform [mkRow 1 50 10, mkRow 1 50 11]) := rfl
  have hlo : ((([mkRow 1 50 10, mkRow 1 50 11]).map Row.evaluation).min?).getD 0 =
      (50 : Int) := rfl
  have hhi : ((([mkRow 1 50 10, mkRow 1 50 11]).map Row.evaluation).max?).getD 0 =
      (50 : Int) := rfl
  have hs : norm_scale [mkRow 1 50 10, mkRow 1 50 11] = 2 := by
    rw [norm_scale, hlo, hhi]
    norm_num [handle_zeros_in_scale]
  have hm : norm_min [mkRow 1 50 10, mkRow 1 50 11] = -101 := by
    rw [norm_min, hlo, hs]
    norm_num
  rw [h1, minmax_fit_transform, hs, hm]
  have he1 : (mkRow 1 50 10).evaluation = 50 := rfl
  have he2 : (mkRow 1 50 11).evaluation = 50 := rfl
  simp only [List.map_cons, List.map_nil, he1, he2]
  norm_num

/-- Claim C3 amended: Normalization never fails.  When the observed minimum
of the final balanced evaluation column equals the observed maximum, the
zero data range is replaced by 1 (sklearn `_handle_zeros_in_scale`) and
every normalized value is exactly -1; the stage still emits one output row
per input row. -/
theorem claim_C3_amended (df : List Row) (a : Int)
    (hmin : (df.map Row.evaluation).min? = some a)
    (hmax : (df.map Row.evaluation).max? = some a) :
    (minmax_fit_transform df).length = df.length ∧
    ∀ x ∈ minmax_fit_transform df, x.evaluation_normalized = -1 := by
  constructor
  · simp [minmax_fit_transform]
  · intro x hx
    rw [minmax_fit_transform, List.mem_map] at hx
    obtain ⟨r, hr, hxr⟩ := hx
    have hmem : r.evaluation ∈ df.map Row.evaluation :=
      List.mem_map_of_mem Row.evaluation hr
    have h1 : a ≤ r.evaluation := int_min?_le hmin hmem
    have h2 : r.evaluation ≤ a := int_le_max? hmax hmem
    have hea : r.evaluation = a := le_antisymm h2 h1
    have hscale : norm_scale df = 2 := by
      rw [norm_scale, hmin, hmax]
      norm_num [handle_zeros_in_scale]
    have hmn : norm_min df = -1 - (a : ℚ) * 2 := by
      rw [norm_min, hmin, hscale]
      simp
    rw [← hxr]
    simp only [hscale, hmn, hea]
    ring

/-- Witness for the amended C3. -/
theorem claim_C3_witness :
    (minmax_fit_transform [mkRow 1 50 10]).length = [mkRow 1 50 10].length ∧
    ∀ x ∈ minmax_fit_transform [mkRow 1 50 10], x.evaluation_normalized = -1 :=
  claim_C3_amended [mkRow 1 50 10] 50 (by decide) (by decide)

theorem min_primary_le (df : List Row) {k : Int × String} (hk : k ∈ groupKeys df) :
    min_primary_group_count df ≤ (groupRows df k).length := by
  have hsz : (groupRows df k).length ∈
      (groupKeys df).map (fun k => (groupRows df k).length) :=
    List.mem_map_of_mem _ hk
  rcases hmin : ((groupKeys df).map (fun k => (groupRows df k).length)).min?
    with _ | a
  · rw [List.min?_eq_none_iff] at hmin
    rw [hmin] at hsz
    simp at hsz
  · rw [min_primary_group_count, hmin]
    simpa using nat_min?_le hmin hsz

/-- Claim C4: whenever Category Balancing succeeds, every observed
(side-to-move, outcome) group's size in the output equals exactly the
minimum over all observed groups' input sizes, no group exceeds that size,
and the output only selects existing rows (downsampling without
replacement, never adding rows). -/
theorem claim_C4_category_balance (df out : List Row)
    (h : balance_primary pd_sample df = some out) :
    (∀ k ∈ groupKeys df,
      out.countP (fun r => decide (groupKey r = k)) = min_primary_group_count df) ∧
    (∀ k : Int × String,
      out.countP (fun r => decide (groupKey r = k)) ≤ min_primary_group_count df) ∧
    (∀ x ∈ out, x ∈ df) := by
  rw [balance_primary] at h
  by_cases hm : min_primary_group_count df = 0
  · rw [if_pos hm] at h
    cases h
  rw [if_neg hm] at h
  injection h with h
  subst h
  refine ⟨fun k hk => ?_, fun k => ?_, fun x hx => mem_downsample hx⟩
  · rw [countP_downsample_mem groupKey (groupKeys df)
      (min_primary_group_count df) df k (List.nodup_dedup _) hk, Nat.min_eq_left]
    rw [List.countP_eq_length_filter]
    exact min_primary_le df hk
  · by_cases hk : k ∈ groupKeys df
    · rw [countP_downsample_mem groupKey (groupKeys df)
        (min_primary_group_count df) df k (List.nodup_dedup _) hk]
      exact Nat.min_le_left _ _
    · rw [countP_downsample_not_mem groupKey (groupKeys df)
        (min_primary_group_count df) df k (List.nodup_dedup _) hk]
      exact Nat.zero_le _

/-- Witness for C4 on `dfC4`: the larger group is downsampled to the
smaller group's size, 1. -/
theorem claim_C4_witness :
    [mkRow 1 10 6, mkRow 0 (-10) 9].countP
        (fun r => decide (groupKey r = ((1 : Int), "white_winning"))) =
      min_primary_group_count dfC4 :=
  (claim_C4_category_balance dfC4 [mkRow 1 10 6, mkRow 0 (-10) 9]
    (by decide)).1 ((1 : Int), "white_winning") (by decide)

/-- Claim C5: whenever Evaluation Bin Balancing succeeds, no output bin's
row count exceeds the configured per-bin target, and every bin whose input
row count was at or below the target keeps exactly its input count. -/
theorem claim_C5_bin_balance (eval_bin_size : Int) (t : Nat) (df out : List Row)
    (h : balance_bins pd_sample eval_bin_size t df = some out) (b : Nat) :
    out.countP
        (fun r => decide (eval_bin (df_bin_edges eval_bin_size df) r = some b)) ≤ t ∧
    (df.countP
        (fun r => decide (eval_bin (df_bin_edges eval_bin_size df) r = some b)) ≤ t →
      out.countP
          (fun r => decide (eval_bin (df_bin_edges eval_bin_size df) r = some b)) =
        df.countP
          (fun r => decide (eval_bin (df_bin_edges eval_bin_size df) r = some b))) := by
  rw [balance_bins] at h
  by_cases hl : (bin_labels eval_bin_size df).isEmpty = true
  · rw [if_pos hl] at h
    cases h
  rw [if_neg hl] at h
  injection h with h
  subst h
  have hnd : ((bin_labels eval_bin_size df).map some).Nodup :=
    (List.nodup_dedup _).map (Option.some_injective _)
  by_cases hb : some b ∈ (bin_labels eval_bin_size df).map some
  · rw [countP_downsample_mem (eval_bin (df_bin_edges eval_bin_size df))
      ((bin_labels eval_bin_size df).map some) t df (some b) hnd hb]
    exact ⟨Nat.min_le_left _ _, fun hle => Nat.min_eq_right hle⟩
  · rw [countP_downsample_not_mem (eval_bin (df_bin_edges eval_bin_size df))
      ((bin_labels eval_bin_size df).map some) t df (some b) hnd hb]
    have hzero : df.countP
        (fun r => decide (eval_bin (df_bin_edges eval_bin_size df) r = some b)) = 0 := by
      rw [List.countP_eq_zero]
      intro r hr hrb
      apply hb
      rw [List.mem_map]
      refine ⟨b, ?_, rfl⟩
      rw [bin_labels, List.mem_dedup, List.mem_filterMap]
      exact ⟨r, hr, of_decide_eq_true hrb⟩
    exact ⟨Nat.zero_le _, fun _ => hzero.symm⟩

/-- Witness for C5 on `dfC5` with target 2: bin 0 held three rows and is
cut to two. -/
theorem claim_C5_witness :
    [mkRow 1 10 6, mkRow 1 30 8, mkRow 1 150 9].countP
        (fun r => decide (eval_bin (df_bin_edges 100 dfC5) r = some 0)) ≤ 2 :=
  (claim_C5_bin_balance 100 2 dfC5 [mkRow 1 10 6, mkRow 1 30 8, mkRow 1 150 9]
    (by decide) 0).1

/-- Claim C6: on a final balanced table whose evaluation column is not
constant, the appended normalized column lies in `[-1, 1]`, attains -1 and
attains +1 (exactly, in the rational model), and normalization only
appends a column — the underlying rows, and with them the original
evaluation column, are returned unchanged. -/
theorem claim_C6_normalization (df : List Row) (a b : Int)
    (hmin : (df.map Row.evaluation).min? = some a)
    (hmax : (df.map Row.evaluation).max? = some b) (hab : a < b) :
    ((minmax_fit_transform df).map RowN.row = df) ∧
    (∀ x ∈ minmax_fit_transform df,
      -1 ≤ x.evaluation_normalized ∧ x.evaluation_normalized ≤ 1) ∧
    (∃ x ∈ minmax_fit_transform df, x.evaluation_normalized = -1) ∧
    (∃ x ∈ minmax_fit_transform df, x.evaluation_normalized = 1) := by
  have habq : (a : ℚ) < (b : ℚ) := by exact_mod_cast hab
  have hne : ((b : ℚ) - (a : ℚ)) ≠ 0 := sub_ne_zero.mpr (ne_of_gt habq)
  have hpos : (0 : ℚ) < (b : ℚ) - (a : ℚ) := sub_pos.mpr habq
  have hscale : norm_scale df = 2 / ((b : ℚ) - (a : ℚ)) := by
    rw [norm_scale, hmin, hmax]
    simp only [Option.getD_some]
    rw [handle_zeros_in_scale, if_neg hne]
    norm_num
  have hspos : (0 : ℚ) < norm_scale df := by
    rw [hscale]
    positivity
  have hval : ∀ r : Row,
      (r.evaluation : ℚ) * norm_scale df + norm_min df =
        ((r.evaluation : ℚ) - (a : ℚ)) * norm_scale df - 1 := by
    intro r
    rw [norm_min, hmin]
    simp only [Option.getD_some]
    ring
  have hcancel : ((b : ℚ) - (a : ℚ)) * norm_scale df = 2 := by
    rw [hscale]
    field_simp
  refine ⟨?_, ?_, ?_, ?_⟩
  · rw [minmax_fit_transform, List.map_map]
    exact List.map_id _
  · intro x hx
    rw [minmax_fit_transform, List.mem_map] at hx
    obtain ⟨r, hr, hxr⟩ := hx
    have hmem : r.evaluation ∈ df.map Row.evaluation :=
      List.mem_map_of_mem Row.evaluation hr
    have hlo : (a : ℚ) ≤ (r.evaluation : ℚ) := by
      exact_mod_cast int_min?_le hmin hmem
    have hhi : (r.evaluation : ℚ) ≤ (b : ℚ) := by
      exact_mod_cast int_le_max? hmax hmem
    rw [← hxr]
    simp only [hval r]
    constructor
    · nlinarith [mul_nonneg (sub_nonneg.mpr hlo) hspos.le]
    · nlinarith [mul_le_mul_of_nonneg_right (sub_le_sub_right hhi (a : ℚ)) hspos.le]
  · obtain ⟨r, hr, hra⟩ := List.mem_map.mp (int_min?_mem hmin)
    refine ⟨⟨r, (r.evaluation : ℚ) * norm_scale df + norm_min df⟩,
      List.mem_map_of_mem _ hr, ?_⟩
    show (r.evaluation : ℚ) * norm_scale df + norm_min df = -1
    rw [hval r, hra]
    ring
  · obtain ⟨r, hr, hrb⟩ := List.mem_map.mp (int_max?_mem hmax)
    refine ⟨⟨r, (r.evaluation : ℚ) * norm_scale df + norm_min df⟩,
      List.mem_map_of_mem _ hr, ?_⟩
    show (r.evaluation : ℚ) * norm_scale df + norm_min df = 1
    rw [hval r, hrb, hcancel]
    norm_num

/-- Witness for C6 on `dfC6` (evaluations 0 and 100). -/
theorem claim_C6_witness :
    (minmax_fit_transform dfC6).map RowN.row = dfC6 :=
  (claim_C6_normalization dfC6 0 100 (by decide) (by decide) (by decide)).1

/-! ## Helper lemmas: seed-agreement congruence and stage membership -/

theorem downsample_congr {κ : Type} [DecidableEq κ] (s1 s2 : SampleFn)
    (hagree : ∀ n xs, s1 42 n xs = s2 42 n xs) (key : Row → κ) (keys : List κ)
    (t : Nat) (df : List Row) :
    downsample_groups s1 key keys t df = downsample_groups s2 key keys t df := by
  rw [downsample_groups, downsample_groups]
  induction keys with
  | nil => rfl
  | cons k ks ih =>
    rw [List.flatMap_cons, List.flatMap_cons, ih]
    congr 1
    split
    · exact hagree _ _
    · rfl

theorem balance_primary_congr (s1 s2 : SampleFn)
    (hagree : ∀ n xs, s1 42 n xs = s2 42 n xs) (df : List Row) :
    balance_primary s1 df = balance_primary s2 df := by
  rw [balance_primary, balance_primary, downsample_congr s1 s2 hagree]

theorem balance_bins_congr (s1 s2 : SampleFn)
    (hagree : ∀ n xs, s1 42 n xs = s2 42 n xs) (eval_bin_size : Int) (t : Nat)
    (df : List Row) :
    balance_bins s1 eval_bin_size t df = balance_bins s2 eval_bin_size t df := by
  rw [balance_bins, balance_bins, downsample_congr s1 s2 hagree]

theorem mem_of_balance_primary {df out : List Row}
    (h : balance_primary pd_sample df = some out) : ∀ x ∈ out, x ∈ df := by
  rw [balance_primary] at h
  by_cases hm : min_primary_group_count df = 0
  · rw [if_pos hm] at h
    cases h
  · rw [if_neg hm] at h
    injection h with h
    subst h
    exact fun x hx => mem_downsample hx

theorem mem_of_balance_bins {eval_bin_size : Int} {t : Nat} {df out : List Row}
    (h : balance_bins pd_sample eval_bin_size t df = some out) :
    ∀ x ∈ out, x ∈ df := by
  rw [balance_bins] at h
  by_cases hl : (bin_labels eval_bin_size df).isEmpty = true
  · rw [if_pos hl] at h
    cases h
  · rw [if_neg hl] at h
    injection h with h
    subst h
    exact fun x hx => mem_downsample hx

theorem normalize_rows_pass_move_filter (min_move max_move eval_bin_size : Int)
    (t : Nat) (cap : Int) (df : List Row) (out : List RowN)
    (h : filter_balance_normalize_data pd_sample min_move max_move eval_bin_size
      t cap df = some out) :
    ∀ x ∈ out, movePred min_move max_move x.row = true := by
  simp only [filter_balance_normalize_data] at h
  by_cases h1 : (List.filter (movePred min_move max_move) df).isEmpty = true
  · rw [if_pos h1] at h
    cases h
  rw [if_neg h1] at h
  by_cases h2 : ((List.filter (movePred min_move max_move) df).filter
      centipawnPred).isEmpty = true
  · rw [if_pos h2] at h
    cases h
  rw [if_neg h2] at h
  by_cases h3 : (((List.filter (movePred min_move max_move) df).filter
      centipawnPred).filter (capPred cap)).isEmpty = true
  · rw [if_pos h3] at h
    cases h
  rw [if_neg h3] at h
  rcases hbp : balance_primary pd_sample (((List.filter (movePred min_move max_move)
      df).filter centipawnPred).filter (capPred cap)) with _ | dfbp
  · rw [hbp] at h
    cases h
  rw [hbp, Option.some_bind] at h
  rcases hbb : balance_bins pd_sample eval_bin_size t dfbp with _ | dffb
  · rw [hbb] at h
    cases h
  rw [hbb] at h
  simp only [Option.map_some', Option.some.injEq] at h
  subst h
  intro x hx
  rw [minmax_fit_transform, List.mem_map] at hx
  obtain ⟨r, hr, hxr⟩ := hx
  have hr2 : r ∈ dfbp := mem_of_balance_bins hbb r hr
  have hr3 := mem_of_balance_primary hbp r hr2
  have hr4 := (List.mem_filter.mp (List.mem_filter.mp (List.mem_filter.mp hr3).1).1).2
  rw [← hxr]
  exact hr4

theorem no_normalize_rows_pass_move_filter (min_move max_move eval_bin_size : Int)
    (t : Nat) (df out : List Row)
    (h : filter_balance_data_no_normalize pd_sample min_move max_move
      eval_bin_size t df = some out) :
    ∀ x ∈ out, movePred min_move max_move x = true := by
  simp only [filter_balance_data_no_normalize] at h
  by_cases h1 : (List.filter (movePred min_move max_move) df).isEmpty = true
  · rw [if_pos h1] at h
    cases h
  rw [if_neg h1] at h
  by_cases h2 : ((List.filter (movePred min_move max_move) df).filter
      centipawnPred).isEmpty = true
  · rw [if_pos h2] at h
    cases h
  rw [if_neg h2] at h
  rcases hbp : balance_primary pd_sample ((List.filter (movePred min_move max_move)
      df).filter centipawnPred) with _ | dfbp
  · rw [hbp] at h
    cases h
  rw [hbp, Option.some_bind] at h
  intro x hx
  have hr2 : x ∈ dfbp := mem_of_balance_bins h x hx
  have hr3 := mem_of_balance_primary hbp x hr2
  exact (List.mem_filter.mp (List.mem_filter.mp hr3).1).2

/-- Claim C9: both balancing scripts are pure functions of the input table
and the sampling source's behaviour at the single documented seed, 42 —
every downsampling call (each category group and each evaluation bin) draws
with `random_state=42`.  Two runs whose sampling sources agree at seed 42
(in particular two runs with the identical seeded source) produce identical
output, row for row. -/
theorem claim_C9_determinism (s1 s2 : SampleFn)
    (hagree : ∀ n xs, s1 42 n xs = s2 42 n xs)
    (min_move max_move eval_bin_size : Int) (t : Nat) (cap : Int)
    (df : List Row) :
    filter_balance_normalize_data s1 min_move max_move eval_bin_size t cap df =
      filter_balance_normalize_data s2 min_move max_move eval_bin_size t cap df ∧
    filter_balance_data_no_normalize s1 min_move max_move eval_bin_size t df =
      filter_balance_data_no_normalize s2 min_move max_move eval_bin_size t df := by
  constructor
  · simp only [filter_balance_normalize_data,
      balance_primary_congr s1 s2 hagree, balance_bins_congr s1 s2 hagree]
  · simp only [filter_balance_data_no_normalize,
      balance_primary_congr s1 s2 hagree, balance_bins_congr s1 s2 hagree]

/-- Witness for C9: re-running the no-normalize script on `dfC1` with the
same seeded source reproduces the output. -/
theorem claim_C9_witness :
    filter_balance_data_no_normalize pd_sample 5 35 100 1000 dfC1 =
      filter_balance_data_no_normalize pd_sample 5 35 100 1000 dfC1 :=
  (claim_C9_determinism pd_sample pd_sample (fun _ _ => rfl) 5 35 100 1000
    2500 dfC1).2

/-- Claim C10: the default row substituted for an invalid board-description
string has fullmove counter 0, hence fails the inclusive fullmove filter
for any `min_move ≥ 1`, and therefore never appears in the balanced
(no-normalize) or balanced-and-normalized output of either script. -/
theorem claim_C10_default_rows_excluded (msg : String) (ev : Int)
    (min_move max_move eval_bin_size : Int) (t : Nat) (cap : Int)
    (df df2 : List Row) (out : List RowN) (out2 : List Row)
    (hmm : 1 ≤ min_move)
    (h : filter_balance_normalize_data pd_sample min_move max_move
      eval_bin_size t cap df = some out)
    (h2 : filter_balance_data_no_normalize pd_sample min_move max_move
      eval_bin_size t df2 = some out2) :
    (rowOfFeatures (parse_fen (Except.error msg)) ev).fullmove_counter = 0 ∧
    movePred min_move max_move (rowOfFeatures (parse_fen (Except.error msg)) ev) =
      false ∧
    (∀ x ∈ out, x.row ≠ rowOfFeatures (parse_fen (Except.error msg)) ev) ∧
    (∀ x ∈ out2, x ≠ rowOfFeatures (parse_fen (Except.error msg)) ev) := by
  have hfm : (rowOfFeatures (parse_fen (Except.error msg)) ev).fullmove_counter = 0 :=
    rfl
  have hmp : movePred min_move max_move
      (rowOfFeatures (parse_fen (Except.error msg)) ev) = false := by
    rw [movePred, hfm]
    have : ¬ (min_move ≤ 0) := by omega
    simp [this]
  refine ⟨hfm, hmp, fun x hx he => ?_, fun x hx he => ?_⟩
  · have := normalize_rows_pass_move_filter min_move max_move eval_bin_size
      t cap df out h x hx
    rw [he, hmp] at this
    cases this
  · have := no_normalize_rows_pass_move_filter min_move max_move eval_bin_size
      t df2 out2 h2 x hx
    rw [he, hmp] at this
    cases this

/-- Witness for C10: the default row is excluded from both scripts' outputs
on concrete successful runs. -/
theorem claim_C10_witness :
    (rowOfFeatures (parse_fen (Except.error "not a fen")) 0).fullmove_counter = 0 ∧
    movePred 5 35 (rowOfFeatures (parse_fen (Except.error "not a fen")) 0) =
      false :=
  ⟨(claim_C10_default_rows_excluded "not a fen" 0 5 35 100 1000 2500 dfC3 dfC1
      (minmax_fit_transform [mkRow 1 50 10, mkRow 1 50 11])
      [mkRow 1 50 10, mkRow 0 (-150) 11, mkRow 0 (-50) 13]
      (by omega) rfl (by decide)).1,
   (claim_C10_default_rows_excluded "not a fen" 0 5 35 100 1000 2500 dfC3 dfC1
      (minmax_fit_transform [mkRow 1 50 10, mkRow 1 50 11])
      [mkRow 1 50 10, mkRow 0 (-150) 11, mkRow 0 (-50) 13]
      (by omega) rfl (by decide)).2.1⟩

end ChessPipeline
